import Mathlib

/-!
Shallow embedding of the `gr::digital` constellation engine
(`constellation.cc`).  Complex float samples are modelled as Mathlib
complex numbers (exact real arithmetic in place of IEEE float),
`std::vector` as `List`, thrown `std::runtime_error` as `Except.error`,
and an out-of-range `std::vector` read (undefined behaviour in C++) as
an explicit error value.
-/

namespace GrDigital

open Complex

/-- Failure modes of vector-indexed lookups: the explicitly thrown
range error of `soft_decision_maker`, and an out-of-range vector read
(undefined behaviour in C++, kept distinct from the thrown error). -/
inductive AccessErr where
  | range : AccessErr
  | oob : AccessErr
deriving DecidableEq, Repr

def exceptOfOption {α : Type} (e : AccessErr) : Option α → Except AccessErr α
  | none => Except.error e
  | some a => Except.ok a

/-- C++ `static_cast<int>` applied to a float value: truncation toward
zero. -/
noncomputable def cppTrunc (x : ℝ) : ℤ := if x < 0 then -⌊-x⌋ else ⌊x⌋

/-- C++ `std::vector` indexing with a signed index: negative or
past-the-end reads are undefined behaviour, modelled as `none`. -/
def listGetZ {α : Type} (l : List α) (i : ℤ) : Option α :=
  if i < 0 then none else l.get? i.toNat

/-- State of the `gr::digital::constellation` base class
(`constellation.h` / `constellation.cc`). -/
structure constellation where
  d_constellation : List ℂ
  d_pre_diff_code : List ℤ
  d_apply_pre_diff_code : Bool
  d_rotational_symmetry : ℕ
  d_dimensionality : ℕ
  d_arity : ℕ
  d_scalefactor : ℝ
  d_re_min : ℝ
  d_re_max : ℝ
  d_im_min : ℝ
  d_im_max : ℝ
  d_soft_dec_lut : List (List ℝ)
  d_lut_precision : ℤ
  d_lut_scale : ℝ

/-- `constellation::constellation(constell, pre_diff_code,
rotational_symmetry, dimensionality)`, lines 43-78: scales the points so
the summed magnitude equals the vector size, then validates the
pre-diff code length against `d_constellation.size()`, then
`calc_arity()` validates divisibility by the dimensionality.  The two
`throw std::runtime_error` sites become `Except.error`, in the C++
evaluation order. -/
noncomputable def construct (constell : List ℂ) (pre_diff_code : List ℤ)
    (rotational_symmetry : ℕ) (dimensionality : ℕ) :
    Except String constellation :=
  let summed_mag : ℝ := (constell.map Complex.abs).sum
  let scalefactor : ℝ := (constell.length : ℝ) / summed_mag
  let scaled : List ℂ := constell.map (fun c => c * (scalefactor : ℂ))
  if pre_diff_code.length ≠ 0 ∧ pre_diff_code.length ≠ constell.length then
    Except.error "The constellation and pre-diff code must be of the same length."
  else if constell.length % dimensionality ≠ 0 then
    Except.error "Constellation vector size must be a multiple of the dimensionality."
  else
    Except.ok
      { d_constellation := scaled
        d_pre_diff_code := pre_diff_code
        d_apply_pre_diff_code := pre_diff_code.length != 0
        d_rotational_symmetry := rotational_symmetry
        d_dimensionality := dimensionality
        d_arity := constell.length / dimensionality
        d_scalefactor := scalefactor
        d_re_min := 1e20
        d_re_max := 1e20
        d_im_min := 1e20
        d_im_max := 1e20
        d_soft_dec_lut := []
        d_lut_precision := 0
        d_lut_scale := 0 }

/-- `constellation::map_to_points_v(value)`, lines 100-114: the
`d_dimensionality` points stored for a symbol value. -/
def map_to_points_v (c : constellation) (value : ℕ) : List ℂ :=
  (List.range c.d_dimensionality).map
    (fun i => c.d_constellation.getD (value * c.d_dimensionality + i) 0)

/-- `constellation::get_distance(index, sample)`, lines 116-124: summed
squared magnitude of the per-dimension differences (`std::norm`). -/
noncomputable def get_distance (c : constellation) (index : ℕ) (sample : List ℂ) : ℝ :=
  (List.range c.d_dimensionality).foldl
    (fun dist i =>
      dist + Complex.normSq (sample.getD i 0 -
        c.d_constellation.getD (index * c.d_dimensionality + i) 0)) 0

/-- The `j = 1 .. d_arity-1` loop of `get_closest_point`, carried as a
fold over the remaining indices with accumulator
`(min_index, min_euclid_dist)`. -/
noncomputable def closest_fold (c : constellation) (sample : List ℂ)
    (l : List ℕ) (acc : ℕ × ℝ) : ℕ × ℝ :=
  l.foldl
    (fun acc j =>
      let euclid_dist := get_distance c j sample
      if euclid_dist < acc.2 then (j, euclid_dist) else acc) acc

/-- `constellation::get_closest_point(sample)`, lines 126-143: linear
scan for the minimum distance, strict comparison, starting from index
0. -/
noncomputable def get_closest_point (c : constellation) (sample : List ℂ) : ℕ :=
  (closest_fold c sample (List.range' 1 (c.d_arity - 1))
    (0, get_distance c 0 sample)).1

/-- `constellation_calcdist::decision_maker(sample)`, lines 412-416. -/
noncomputable def calcdist_decision_maker (c : constellation) (sample : List ℂ) : ℕ :=
  get_closest_point c sample

/-- `constellation::decision_maker_pe(sample, phase_error)`, lines
145-154.  `decision_maker` is a virtual method resolved per subclass,
passed here as the function `dm`.  Note the accumulation reads
`d_constellation[index + d]`, exactly as the source does. -/
noncomputable def decision_maker_pe (c : constellation) (dm : List ℂ → ℕ)
    (sample : List ℂ) : ℕ × ℝ :=
  let index := dm sample
  let phase_error :=
    (List.range c.d_dimensionality).foldl
      (fun pe d =>
        pe + -Complex.arg (sample.getD d 0 *
          (starRingEnd ℂ) (c.d_constellation.getD (index + d) 0))) 0
  (index, phase_error)

/-- Phase error as the specification words it: negative sum over
dimensions `d` of `arg (sample_d * conj points[index * D + d])`, the
`d`-th stored reference point of the decided symbol (the indexing
convention of `map_to_points`). -/
noncomputable def spec_phase_error (c : constellation) (index : ℕ)
    (sample : List ℂ) : ℝ :=
  -∑ d ∈ Finset.range c.d_dimensionality,
    Complex.arg (sample.getD d 0 *
      (starRingEnd ℂ) (c.d_constellation.getD (index * c.d_dimensionality + d) 0))

/-- Bit `j` of a C `int` (two's complement): `(code & (1 << j)) >> j`.
Euclidean division by `2^j` and remainder mod 2 agree with the
arithmetic-shift semantics for negative values. -/
def code_bit (code : ℤ) (j : ℕ) : ℕ := ((code.ediv (2 ^ j)).emod 2).toNat

/-- `constellation::calc_soft_dec(sample, npwr)`, lines 267-308.  The
bit loop reads `d_pre_diff_code[i]` unconditionally for every symbol
`i`, whether or not a pre-diff code was configured; reading past the
end of the vector is surfaced as `AccessErr.oob`.  `k` is
`int(log(M)/log(2))`, i.e. the floor base-2 logarithm for the
power-of-two sizes used here. -/
noncomputable def calc_soft_dec (c : constellation) (sample : ℂ) (npwr : ℝ) :
    Except AccessErr (List ℝ) :=
  let M := c.d_constellation.length
  let k := Nat.log 2 M
  let scale := c.d_scalefactor * c.d_scalefactor
  ((List.range M).foldlM
      (fun (tmp : List ℝ) i =>
        let p := c.d_constellation.getD i 0
        let dist := Complex.abs (sample - p) ^ 2
        let d := Real.exp (-dist / (2 * npwr * scale))
        (List.range k).foldlM
          (fun (t : List ℝ) j =>
            (exceptOfOption AccessErr.oob (c.d_pre_diff_code.get? i)).map
              (fun code =>
                let bit := code_bit code j
                t.set (2 * j + bit) (t.getD (2 * j + bit) 0 + d))) tmp)
      (List.replicate (2 * k) (0 : ℝ))).map
    (fun tmp =>
      (List.range k).map
        (fun j =>
          (Real.log (tmp.getD (2 * (k - 1 - j) + 1) 0) -
            Real.log (tmp.getD (2 * (k - 1 - j)) 0)) * scale))

/-- `constellation::max_min_axes()`, lines 359-386: bounding box of the
stored points, starting from the sentinels `±1e20`, followed by the
zero-substitution of one axis's bound by the other's. -/
noncomputable def max_min_axes (c : constellation) : constellation :=
  let b :=
    c.d_constellation.foldl
      (fun (b : ℝ × ℝ × ℝ × ℝ) p =>
        let re_min := b.1
        let im_min := b.2.1
        let re_max := b.2.2.1
        let im_max := b.2.2.2
        let re_max := if re_max < p.re then p.re else re_max
        let im_max := if im_max < p.im then p.im else im_max
        let re_min := if p.re < re_min then p.re else re_min
        let im_min := if p.im < im_min then p.im else im_min
        (re_min, im_min, re_max, im_max))
      ((1e20 : ℝ), (1e20 : ℝ), (-1e20 : ℝ), (-1e20 : ℝ))
  let re_min := b.1
  let im_min := b.2.1
  let re_max := b.2.2.1
  let im_max := b.2.2.2
  let im_min := if im_min = 0 then re_min else im_min
  let im_max := if im_max = 0 then re_max else im_max
  let re_min := if re_min = 0 then im_min else re_min
  let re_max := if re_max = 0 then im_max else re_max
  { c with d_re_min := re_min, d_re_max := re_max,
           d_im_min := im_min, d_im_max := im_max }

/-- `constellation::set_soft_dec_lut(soft_dec_lut, precision)`, lines
310-319. -/
noncomputable def set_soft_dec_lut (c : constellation)
    (soft_dec_lut : List (List ℝ)) (precision : ℤ) : constellation :=
  let c' := max_min_axes c
  { c' with d_soft_dec_lut := soft_dec_lut,
            d_lut_precision := precision,
            d_lut_scale := (2 : ℝ) ^ precision }

/-- `constellation::has_soft_dec_lut()`, lines 321-325. -/
def has_soft_dec_lut (c : constellation) : Bool :=
  decide (0 < c.d_soft_dec_lut.length)

/-- The flat LUT index `static_cast<int>(d_lut_scale*xim + xre)`
computed by `soft_decision_maker`, lines 331-342. -/
noncomputable def lut_index (c : constellation) (sample : ℂ) : ℤ :=
  let xstep := (c.d_re_max - c.d_re_min) / c.d_lut_scale
  let ystep := (c.d_im_max - c.d_im_min) / c.d_lut_scale
  let xscale := c.d_lut_scale / (c.d_re_max - c.d_re_min) - xstep
  let yscale := c.d_lut_scale / (c.d_im_max - c.d_im_min) - ystep
  let xre : ℝ :=
    (⌊(-c.d_re_min + min c.d_re_max (max c.d_re_min sample.re)) * xscale⌋ : ℤ)
  let xim : ℝ :=
    (⌊(-c.d_im_min + min c.d_im_max (max c.d_im_min sample.im)) * yscale⌋ : ℤ)
  cppTrunc (c.d_lut_scale * xim + xre)

/-- `int max_index = d_lut_scale*d_lut_scale`, line 344. -/
noncomputable def lut_max_index (c : constellation) : ℤ :=
  cppTrunc (c.d_lut_scale * c.d_lut_scale)

/-- `constellation::soft_decision_maker(sample)`, lines 327-357.  With a
LUT: clamp the sample to the bounding box, derive the flat index; an
index above `max_index` reads entry `max_index - 1`; a negative index
throws; otherwise entry `index` is read.  Without a LUT: fall through to
`calc_soft_dec(sample)` (default noise power 1.0 from the
declaration). -/
noncomputable def soft_decision_maker (c : constellation) (sample : ℂ) :
    Except AccessErr (List ℝ) :=
  if has_soft_dec_lut c then
    let index := lut_index c sample
    let max_index := lut_max_index c
    if max_index < index then
      exceptOfOption AccessErr.oob (listGetZ c.d_soft_dec_lut (max_index - 1))
    else if index < 0 then
      Except.error AccessErr.range
    else
      exceptOfOption AccessErr.oob (listGetZ c.d_soft_dec_lut index)
  else
    calc_soft_dec c sample 1

/-- State of `gr::digital::constellation_sector`, lines 422-453. -/
structure constellation_sector extends constellation where
  n_sectors : ℕ
  sector_values : List ℕ

/-- `constellation_sector::decision_maker(sample)`, lines 437-443:
`sector_values[get_sector(sample)]`.  `get_sector` is a virtual method
resolved per subclass and passed here as `getSec`; the vector read is
modelled as an `Option` access. -/
def sector_decision_maker (cs : constellation_sector) (getSec : ℂ → ℕ)
    (sample : ℂ) : Option ℕ :=
  cs.sector_values.get? (getSec sample)

/-- State of `gr::digital::constellation_rect`, lines 459-541. -/
structure constellation_rect extends constellation_sector where
  n_real_sectors : ℕ
  n_imag_sectors : ℕ
  d_width_real_sectors : ℝ
  d_width_imag_sectors : ℝ

/-- `constellation_rect::get_sector(sample)`, lines 497-519: the real
and imaginary bin indices, each clamped to `[0, sectors-1]`, combined
as `real_sector * n_imag_sectors + imag_sector`.  The C++ result type
is `unsigned int`; after both clamps the value is non-negative. -/
noncomputable def rect_get_sector (c : constellation_rect) (sample : ℂ) : ℕ :=
  let real_sector : ℤ :=
    cppTrunc (sample.re / c.d_width_real_sectors + (c.n_real_sectors : ℝ) / 2)
  let real_sector := if real_sector < 0 then 0 else real_sector
  let real_sector :=
    if (c.n_real_sectors : ℤ) ≤ real_sector then (c.n_real_sectors : ℤ) - 1
    else real_sector
  let imag_sector : ℤ :=
    cppTrunc (sample.im / c.d_width_imag_sectors + (c.n_imag_sectors : ℝ) / 2)
  let imag_sector := if imag_sector < 0 then 0 else imag_sector
  let imag_sector :=
    if (c.n_imag_sectors : ℤ) ≤ imag_sector then (c.n_imag_sectors : ℤ) - 1
    else imag_sector
  (real_sector * c.n_imag_sectors + imag_sector).toNat

/-- `constellation_rect::calc_sector_center(sector)`, lines 521-532.
`real_sector = float(sector)/n_imag_sectors` truncated into an
`unsigned int` is natural-number division. -/
noncomputable def rect_calc_sector_center (c : constellation_rect)
    (sector : ℕ) : ℂ :=
  let real_sector := sector / c.n_imag_sectors
  let imag_sector := sector - real_sector * c.n_imag_sectors
  ⟨((real_sector : ℝ) + 0.5 - (c.n_real_sectors : ℝ) / 2) * c.d_width_real_sectors,
   ((imag_sector : ℝ) + 0.5 - (c.n_imag_sectors : ℝ) / 2) * c.d_width_imag_sectors⟩

/-- `constellation_rect::calc_sector_value(sector)`, lines 534-541:
nearest stored point to the sector's geometric center. -/
noncomputable def rect_calc_sector_value (c : constellation_rect)
    (sector : ℕ) : ℕ :=
  get_closest_point c.toconstellation [rect_calc_sector_center c sector]

/-- `constellation_rect::constellation_rect(...)`, lines 476-491: base
construction with dimensionality 1 and `n_sectors =
real_sectors * imag_sectors`, widths multiplied by `d_scalefactor`,
then `find_sector_values()` (lines 445-453) fills `sector_values` with
`calc_sector_value(i)` for every sector. -/
noncomputable def rect_construct (constell : List ℂ) (pre_diff_code : List ℤ)
    (rotational_symmetry : ℕ) (real_sectors imag_sectors : ℕ)
    (width_real_sectors width_imag_sectors : ℝ) :
    Except String constellation_rect :=
  (construct constell pre_diff_code rotational_symmetry 1).map
    (fun base =>
      let c0 : constellation_rect :=
        { toconstellation := base
          n_sectors := real_sectors * imag_sectors
          sector_values := []
          n_real_sectors := real_sectors
          n_imag_sectors := imag_sectors
          d_width_real_sectors := width_real_sectors * base.d_scalefactor
          d_width_imag_sectors := width_imag_sectors * base.d_scalefactor }
      { c0 with
          sector_values :=
            (List.range (real_sectors * imag_sectors)).map
              (rect_calc_sector_value c0) })

/-- State of `gr::digital::constellation_expl_rect`, lines 545-580,
with the caller-supplied sector table `d_sector_values`. -/
structure constellation_expl_rect extends constellation_rect where
  d_sector_values : List ℕ

/-- `constellation_expl_rect::constellation_expl_rect(...)`, lines
563-576: the entire `constellation_rect` construction runs first (so
`find_sector_values()` fills `sector_values` through
`constellation_rect::calc_sector_value` — during base-class
construction C++ virtual dispatch cannot reach a derived override, and
`find_sector_values` is never called again), then `d_sector_values` is
initialised from the argument. -/
noncomputable def expl_rect_construct (constell : List ℂ)
    (pre_diff_code : List ℤ) (rotational_symmetry : ℕ)
    (real_sectors imag_sectors : ℕ)
    (width_real_sectors width_imag_sectors : ℝ)
    (sector_values_arg : List ℕ) : Except String constellation_expl_rect :=
  (rect_construct constell pre_diff_code rotational_symmetry real_sectors
      imag_sectors width_real_sectors width_imag_sectors).map
    (fun r => { toconstellation_rect := r, d_sector_values := sector_values_arg })

/-- Modelled from the spec: `constellation_expl_rect::calc_sector_value`
(declared in the missing header `constellation_expl_rect.h`) returns
the caller-supplied sector-to-symbol table entry,
`d_sector_values[sector]` — "the sector→symbol table is supplied
directly by the caller". -/
def expl_rect_calc_sector_value (c : constellation_expl_rect)
    (sector : ℕ) : Option ℕ :=
  c.d_sector_values.get? sector

/-- The hard decision of `constellation_expl_rect`: the inherited
`constellation_sector::decision_maker` with the inherited rectangular
`get_sector` (the missing header's `get_sector` delegates to
`constellation_rect::get_sector`, modelled from the spec: "identical
geometry"). -/
noncomputable def expl_rect_decision_maker (c : constellation_expl_rect)
    (sample : ℂ) : Option ℕ :=
  sector_decision_maker c.toconstellation_sector
    (fun s => rect_get_sector c.toconstellation_rect s) sample

/-- `constellation_psk::get_sector(sample)`, lines 608-617: wedge index
`floor(arg(sample)/width + 0.5)`, wrapped into range by adding
`n_sectors` once when negative.  The C++ result type is `unsigned int`. -/
noncomputable def psk_get_sector (c : constellation_sector) (sample : ℂ) : ℕ :=
  let phase := Complex.arg sample
  let width := 2 * Real.pi / c.n_sectors
  let sector : ℤ := ⌊phase / width + 0.5⌋
  let sector := if sector < 0 then sector + c.n_sectors else sector
  sector.toNat

/-- The wedge-center direction `gr_complex(cos(phase), sin(phase))`
with `phase = sector * M_TWOPI / n_sectors`, from
`constellation_psk::calc_sector_value`, lines 619-626. -/
noncomputable def psk_sector_center (c : constellation_sector) (sector : ℕ) : ℂ :=
  ⟨Real.cos ((sector : ℝ) * (2 * Real.pi) / c.n_sectors),
   Real.sin ((sector : ℝ) * (2 * Real.pi) / c.n_sectors)⟩

/-- `constellation_psk::calc_sector_value(sector)`, lines 619-626:
nearest stored point to the wedge's center on the unit circle. -/
noncomputable def psk_calc_sector_value (c : constellation_sector)
    (sector : ℕ) : ℕ :=
  get_closest_point c.toconstellation [psk_sector_center c sector]

/-- `constellation_psk::constellation_psk(constell, pre_diff_code,
n_sectors)`, lines 595-602: base construction with
`rotational_symmetry = constell.size()` and dimensionality 1, then
`find_sector_values()`. -/
noncomputable def psk_construct (constell : List ℂ) (pre_diff_code : List ℤ)
    (n_sectors : ℕ) : Except String constellation_sector :=
  (construct constell pre_diff_code constell.length 1).map
    (fun base =>
      let c0 : constellation_sector :=
        { toconstellation := base, n_sectors := n_sectors, sector_values := [] }
      { c0 with
          sector_values :=
            (List.range n_sectors).map (psk_calc_sector_value c0) })

/-- `SQRT_TWO`, line 40. -/
noncomputable def SQRT_TWO : ℝ := 0.707107

/-- `constellation_bpsk::constellation_bpsk()`, lines 638-646: built on
the default base constructor (no scaling, `d_scalefactor = 1`, empty
pre-diff code). -/
noncomputable def constellation_bpsk : constellation :=
  { d_constellation := [⟨-1, 0⟩, ⟨1, 0⟩]
    d_pre_diff_code := []
    d_apply_pre_diff_code := false
    d_rotational_symmetry := 2
    d_dimensionality := 1
    d_arity := 2
    d_scalefactor := 1
    d_re_min := 1e20
    d_re_max := 1e20
    d_im_min := 1e20
    d_im_max := 1e20
    d_soft_dec_lut := []
    d_lut_precision := 0
    d_lut_scale := 0 }

/-- `constellation_bpsk::decision_maker(sample)`, lines 652-656:
`real(*sample) > 0`. -/
noncomputable def bpsk_decision_maker (sample : ℂ) : ℕ :=
  if 0 < sample.re then 1 else 0

/-- `constellation_qpsk::constellation_qpsk()`, lines 668-693. -/
noncomputable def constellation_qpsk : constellation :=
  { d_constellation := [⟨-SQRT_TWO, -SQRT_TWO⟩, ⟨SQRT_TWO, -SQRT_TWO⟩,
                        ⟨-SQRT_TWO, SQRT_TWO⟩, ⟨SQRT_TWO, SQRT_TWO⟩]
    d_pre_diff_code := [0x0, 0x2, 0x3, 0x1]
    d_apply_pre_diff_code := false
    d_rotational_symmetry := 4
    d_dimensionality := 1
    d_arity := 4
    d_scalefactor := 1
    d_re_min := 1e20
    d_re_max := 1e20
    d_im_min := 1e20
    d_im_max := 1e20
    d_soft_dec_lut := []
    d_lut_precision := 0
    d_lut_scale := 0 }

/-- `constellation_qpsk::decision_maker(sample)`, lines 699-722:
`2*(imag(*sample)>0) + (real(*sample)>0)`. -/
noncomputable def qpsk_decision_maker (sample : ℂ) : ℕ :=
  2 * (if 0 < sample.im then 1 else 0) + (if 0 < sample.re then 1 else 0)

/-- `constellation_dqpsk::constellation_dqpsk()`, lines 734-756. -/
noncomputable def constellation_dqpsk : constellation :=
  { d_constellation := [⟨SQRT_TWO, SQRT_TWO⟩, ⟨-SQRT_TWO, SQRT_TWO⟩,
                        ⟨-SQRT_TWO, -SQRT_TWO⟩, ⟨SQRT_TWO, -SQRT_TWO⟩]
    d_pre_diff_code := [0x0, 0x1, 0x3, 0x2]
    d_apply_pre_diff_code := true
    d_rotational_symmetry := 4
    d_dimensionality := 1
    d_arity := 4
    d_scalefactor := 1
    d_re_min := 1e20
    d_re_max := 1e20
    d_im_min := 1e20
    d_im_max := 1e20
    d_soft_dec_lut := []
    d_lut_precision := 0
    d_lut_scale := 0 }

/-- `constellation_dqpsk::decision_maker(sample)`, lines 762-782: the
explicit quadrant case table. -/
noncomputable def dqpsk_decision_maker (sample : ℂ) : ℕ :=
  if 0 < sample.re then
    (if 0 < sample.im then 0x0 else 0x3)
  else
    (if 0 < sample.im then 0x1 else 0x2)

/-- `constellation_8psk::constellation_8psk()`, lines 794-810: the
Gray-coded 8-PSK points at odd multiples of `M_PI/8`. -/
noncomputable def constellation_8psk : constellation :=
  { d_constellation :=
      [⟨Real.cos (1 * (Real.pi / 8)), Real.sin (1 * (Real.pi / 8))⟩,
       ⟨Real.cos (7 * (Real.pi / 8)), Real.sin (7 * (Real.pi / 8))⟩,
       ⟨Real.cos (15 * (Real.pi / 8)), Real.sin (15 * (Real.pi / 8))⟩,
       ⟨Real.cos (9 * (Real.pi / 8)), Real.sin (9 * (Real.pi / 8))⟩,
       ⟨Real.cos (3 * (Real.pi / 8)), Real.sin (3 * (Real.pi / 8))⟩,
       ⟨Real.cos (5 * (Real.pi / 8)), Real.sin (5 * (Real.pi / 8))⟩,
       ⟨Real.cos (13 * (Real.pi / 8)), Real.sin (13 * (Real.pi / 8))⟩,
       ⟨Real.cos (11 * (Real.pi / 8)), Real.sin (11 * (Real.pi / 8))⟩]
    d_pre_diff_code := []
    d_apply_pre_diff_code := false
    d_rotational_symmetry := 8
    d_dimensionality := 1
    d_arity := 8
    d_scalefactor := 1
    d_re_min := 1e20
    d_re_max := 1e20
    d_im_min := 1e20
    d_im_max := 1e20
    d_soft_dec_lut := []
    d_lut_precision := 0
    d_lut_scale := 0 }

/-- `constellation_8psk::decision_maker(sample)`, lines 816-832: three
sign/magnitude comparisons OR-ed together bit by bit. -/
noncomputable def psk8_decision_maker (sample : ℂ) : ℕ :=
  let ret : ℕ := if |sample.re| ≤ |sample.im| then 4 else 0
  let ret := if sample.re ≤ 0 then ret ||| 1 else ret
  let ret := if sample.im ≤ 0 then ret ||| 2 else ret
  ret

/-! Helper lemmas about the distance accumulation and the
minimum-search loop. -/

lemma foldl_add_eq_sum (f : ℕ → ℝ) (l : List ℕ) (a : ℝ) :
    l.foldl (fun acc i => acc + f i) a = a + (l.map f).sum := by
  induction l generalizing a with
  | nil => simp
  | cons x xs ih => simp [ih, add_assoc]

lemma sum_map_range (f : ℕ → ℝ) (n : ℕ) :
    ((List.range n).map f).sum = ∑ i ∈ Finset.range n, f i := by
  induction n with
  | zero => simp
  | succ n ih => rw [List.range_succ, Finset.sum_range_succ]; simp [ih]

lemma get_distance_eq_sum (c : constellation) (index : ℕ) (sample : List ℂ) :
    get_distance c index sample =
      ∑ i ∈ Finset.range c.d_dimensionality,
        Complex.normSq (sample.getD i 0 -
          c.d_constellation.getD (index * c.d_dimensionality + i) 0) := by
  rw [get_distance, foldl_add_eq_sum, zero_add, sum_map_range]

lemma get_distance_nonneg (c : constellation) (index : ℕ) (sample : List ℂ) :
    0 ≤ get_distance c index sample := by
  rw [get_distance_eq_sum]
  exact Finset.sum_nonneg fun i _ => Complex.normSq_nonneg _

lemma closest_fold_append (c : constellation) (sample : List ℂ)
    (l1 l2 : List ℕ) (acc : ℕ × ℝ) :
    closest_fold c sample (l1 ++ l2) acc =
      closest_fold c sample l2 (closest_fold c sample l1 acc) := by
  simp [closest_fold, List.foldl_append]

lemma closest_fold_spec (c : constellation) (sample : List ℂ) (n : ℕ)
    (mi : ℕ) (md : ℝ)
    (h : closest_fold c sample (List.range' 1 n)
          (0, get_distance c 0 sample) = (mi, md)) :
    md = get_distance c mi sample ∧ mi ≤ n ∧
      (∀ j, j ≤ n → md ≤ get_distance c j sample) ∧
      (∀ j, j < mi → md < get_distance c j sample) := by
  induction n generalizing mi md with
  | zero =>
      simp [closest_fold] at h
      obtain ⟨h1, h2⟩ := h
      subst h1; subst h2
      refine ⟨rfl, le_refl 0, fun j hj => ?_, fun j hj => absurd hj (by omega)⟩
      have : j = 0 := by omega
      subst this
      exact le_refl _
  | succ n ih =>
      rw [List.range'_concat] at h
      rw [closest_fold_append] at h
      obtain ⟨mi', md', hr⟩ : ∃ mi' md',
          closest_fold c sample (List.range' 1 n)
            (0, get_distance c 0 sample) = (mi', md') := ⟨_, _, rfl⟩
      obtain ⟨ih1, ih2, ih3, ih4⟩ := ih mi' md' hr
      rw [hr] at h
      have hlast : (1 + 1 * n) = n + 1 := by omega
      rw [hlast] at h
      simp only [closest_fold, List.foldl_cons, List.foldl_nil] at h
      by_cases hcmp : get_distance c (n + 1) sample < md'
      · rw [if_pos hcmp] at h
        obtain ⟨h1, h2⟩ := Prod.mk.injEq .. ▸ h
        subst h1; subst h2
        refine ⟨rfl, le_refl _, fun j hj => ?_, fun j hj => ?_⟩
        · rcases Nat.lt_succ_iff_lt_or_eq.mp (Nat.lt_succ_of_le hj) with hj' | hj'
          · exact le_of_lt (lt_of_lt_of_le hcmp (ih3 j (by omega)))
          · subst hj'; exact le_refl _
        · exact lt_of_lt_of_le hcmp (ih3 j (by omega))
      · rw [if_neg hcmp] at h
        obtain ⟨h1, h2⟩ := Prod.mk.injEq .. ▸ h
        subst h1; subst h2
        refine ⟨ih1, by omega, fun j hj => ?_, ih4⟩
        rcases Nat.lt_succ_iff_lt_or_eq.mp (Nat.lt_succ_of_le hj) with hj' | hj'
        · exact ih3 j (by omega)
        · subst hj'; exact le_of_not_lt hcmp

lemma get_closest_point_spec (c : constellation) (sample : List ℂ)
    (h : 1 ≤ c.d_arity) :
    get_closest_point c sample < c.d_arity ∧
      (∀ j, j < c.d_arity →
        get_distance c (get_closest_point c sample) sample ≤
          get_distance c j sample) ∧
      (∀ j, j < get_closest_point c sample →
        get_distance c (get_closest_point c sample) sample <
          get_distance c j sample) := by
  obtain ⟨mi, md, hr⟩ : ∃ mi md,
      closest_fold c sample (List.range' 1 (c.d_arity - 1))
        (0, get_distance c 0 sample) = (mi, md) := ⟨_, _, rfl⟩
  obtain ⟨h1, h2, h3, h4⟩ := closest_fold_spec c sample (c.d_arity - 1) mi md hr
  have hg : get_closest_point c sample = mi := by
    rw [get_closest_point, hr]
  rw [hg]
  subst h1
  exact ⟨by omega, fun j hj => h3 j (by omega), h4⟩

/-- C9: for every non-empty point set and every sample vector,
`get_closest_point` (the `calcdist` hard decision, lines 126-143 and
412-416) returns an in-range index of minimum `get_distance`, and the
smallest such index when several attain the minimum. -/
theorem calcdist_decision_is_first_argmin (c : constellation)
    (sample : List ℂ) (h : 1 ≤ c.d_arity) :
    calcdist_decision_maker c sample < c.d_arity ∧
      (∀ j, j < c.d_arity →
        get_distance c (calcdist_decision_maker c sample) sample ≤
          get_distance c j sample) ∧
      (∀ j, j < calcdist_decision_maker c sample →
        get_distance c (calcdist_decision_maker c sample) sample <
          get_distance c j sample) :=
  get_closest_point_spec c sample h

/-- Witness for C9 at the concrete BPSK constellation and the sample
`[0]`. -/
theorem calcdist_decision_is_first_argmin_witness :
    calcdist_decision_maker constellation_bpsk [0] < constellation_bpsk.d_arity ∧
      get_distance constellation_bpsk
          (calcdist_decision_maker constellation_bpsk [0]) [0] ≤
        get_distance constellation_bpsk 1 [0] :=
  ⟨(calcdist_decision_is_first_argmin constellation_bpsk [0] (by decide)).1,
   (calcdist_decision_is_first_argmin constellation_bpsk [0] (by decide)).2.1 1
     (by decide)⟩

/-! Construction: error conditions and normalization. -/

def exceptIsOk {ε α : Type} : Except ε α → Bool
  | Except.ok _ => true
  | Except.error _ => false

/-- The constellation produced by `constellation(constell = [-1, 1],
pre_diff_code = [], rotational_symmetry = 2, dimensionality = 1)`: the
summed magnitude is 2, so the scale factor is 1 and the points are
stored unchanged. -/
noncomputable def cstl_pm_one : constellation :=
  { d_constellation := [-1, 1]
    d_pre_diff_code := []
    d_apply_pre_diff_code := false
    d_rotational_symmetry := 2
    d_dimensionality := 1
    d_arity := 2
    d_scalefactor := 1
    d_re_min := 1e20
    d_re_max := 1e20
    d_im_min := 1e20
    d_im_max := 1e20
    d_soft_dec_lut := []
    d_lut_precision := 0
    d_lut_scale := 0 }

lemma construct_pm_one :
    construct [(-1 : ℂ), 1] [] 2 1 = Except.ok cstl_pm_one := by
  rw [construct, cstl_pm_one]
  norm_num

/-- C3 counterexample: a dimensionality-2 point set with a pre-diff
code of length `arity = 2` (exactly what the claim calls a valid input)
is rejected, because the constructor compares the code length against
`d_constellation.size() = 4`, not against the arity. -/
theorem construct_rejects_arity_length_code :
    construct [1, Complex.I, -1, -Complex.I] [0, 1] 4 2 =
        Except.error
          "The constellation and pre-diff code must be of the same length." ∧
      ([0, 1] : List ℤ).length =
        ([1, Complex.I, -1, -Complex.I] : List ℂ).length / 2 := by
  exact ⟨rfl, rfl⟩

/-- C3 (amended): for a positive dimensionality, construction succeeds
exactly when the point count is a multiple of the dimensionality and
the pre-diff code is empty or has the same length as the point vector
itself (`points.size()`, not the arity). -/
theorem construct_ok_iff (constell : List ℂ) (pre_diff_code : List ℤ)
    (rot dim : ℕ) (_hdim : 1 ≤ dim) :
    exceptIsOk (construct constell pre_diff_code rot dim) = true ↔
      (constell.length % dim = 0 ∧
        (pre_diff_code.length = 0 ∨
          pre_diff_code.length = constell.length)) := by
  rw [construct]
  by_cases h1 : pre_diff_code.length ≠ 0 ∧
      pre_diff_code.length ≠ constell.length
  · rw [if_pos h1]
    simp only [exceptIsOk]
    constructor
    · intro h; exact absurd h (by simp)
    · intro h; omega
  · rw [if_neg h1]
    by_cases h2 : constell.length % dim ≠ 0
    · rw [if_pos h2]
      simp only [exceptIsOk]
      constructor
      · intro h; exact absurd h (by simp)
      · intro h; omega
    · rw [if_neg h2]
      simp only [exceptIsOk, true_iff]
      omega

/-- Witness for C3 at a concrete valid input. -/
theorem construct_ok_iff_witness :
    exceptIsOk (construct [(-1 : ℂ), 1] [] 2 1) = true :=
  (construct_ok_iff [(-1 : ℂ), 1] [] 2 1 (by norm_num)).mpr (by norm_num)

/-- C4 counterexample: for the dimensionality-2 point set
`[1, I, -1, -I]` (arity 2, summed raw magnitude 4) the constructor's
scale factor is `size/Σ|p| = 1`, not `arity/Σ|p| = 1/2`, and the summed
stored magnitude divided by the arity is 2, not 1. -/
theorem construct_scalefactor_counterexample :
    (construct [1, Complex.I, -1, -Complex.I] [] 4 2).map
        (fun c => (c.d_scalefactor,
          ((c.d_constellation.map Complex.abs).sum) / (c.d_arity : ℝ))) =
      Except.ok (1, 2) ∧
    (1 : ℝ) ≠ (2 : ℝ) / 4 ∧ (2 : ℝ) ≠ 1 := by
  refine ⟨?_, by norm_num, by norm_num⟩
  rw [construct]
  norm_num [exceptIsOk, Except.map, Complex.abs_apply, Complex.normSq_apply]

/-- C4 (amended): whenever construction succeeds on points of non-zero
summed magnitude, the scale factor is `points.size() / Σ|p_i|` (the
full vector length, which equals the arity exactly when the
dimensionality is 1), and the stored points have mean magnitude 1 per
stored point: `Σ|stored_i| / points.size() = 1`. -/
theorem construct_scalefactor_normalizes (constell : List ℂ)
    (pre_diff_code : List ℤ) (rot dim : ℕ) (c : constellation)
    (hok : construct constell pre_diff_code rot dim = Except.ok c)
    (hmag : (constell.map Complex.abs).sum ≠ 0) :
    c.d_scalefactor =
        (constell.length : ℝ) / (constell.map Complex.abs).sum ∧
      ((c.d_constellation.map Complex.abs).sum) / (constell.length : ℝ) = 1 := by
  have hpos : 0 < (constell.map Complex.abs).sum := by
    rcases lt_or_eq_of_le (List.sum_nonneg (l := constell.map Complex.abs)
      (by intro x hx; obtain ⟨p, _, rfl⟩ := List.mem_map.mp hx
          exact AbsoluteValue.nonneg _ _)) with h | h
    · exact h
    · exact absurd h.symm hmag
  have hlen0 : constell.length ≠ 0 := by
    intro h
    rw [List.length_eq_zero] at h
    subst h
    simp at hmag
  have hlenR : ((constell.length : ℝ)) ≠ 0 := Nat.cast_ne_zero.mpr hlen0
  rw [construct] at hok
  split_ifs at hok with h1 h2
  cases hok
  refine ⟨rfl, ?_⟩
  have hsf : (0 : ℝ) ≤ (constell.length : ℝ) / (constell.map Complex.abs).sum :=
    div_nonneg (Nat.cast_nonneg _) (le_of_lt hpos)
  have habs : (Complex.abs ∘ fun z => z *
      (((constell.length : ℝ) / (constell.map Complex.abs).sum : ℝ) : ℂ)) =
      fun z => Complex.abs z *
        ((constell.length : ℝ) / (constell.map Complex.abs).sum) := by
    funext z
    rw [Function.comp_apply, map_mul, Complex.abs_ofReal, abs_eq_self.mpr hsf]
  show ((List.map Complex.abs (List.map _ constell)).sum) / _ = 1
  rw [List.map_map, habs, List.sum_map_mul_right]
  field_simp

/-- Witness for C4 at the concrete point set `[-1, 1]`. -/
theorem construct_scalefactor_normalizes_witness :
    cstl_pm_one.d_scalefactor =
        ((([(-1 : ℂ), 1] : List ℂ).length : ℝ) /
          (([(-1 : ℂ), 1] : List ℂ).map Complex.abs).sum) ∧
      ((cstl_pm_one.d_constellation.map Complex.abs).sum) /
          ((([(-1 : ℂ), 1] : List ℂ).length : ℝ)) = 1 :=
  construct_scalefactor_normalizes [(-1 : ℂ), 1] [] 2 1 cstl_pm_one
    construct_pm_one (by simp)

/-! Soft decision: the unconditional pre-diff-code read (C1). -/

/-- C1: the code contradicts the claim.  `calc_soft_dec`'s bit loop
reads `d_pre_diff_code[i]` for every symbol whether or not a pre-diff
code is configured (line 289); on a constellation constructed with an
empty pre-diff code (`d_apply_pre_diff_code = false`) the very first
read is past the end of the empty vector — there is no fallback to the
symbol index's own binary representation.  Evaluated at the two-point
set `[-1, 1]` with empty code, sample 0, noise power 1. -/
theorem calc_soft_dec_reads_missing_pre_diff_code :
    (construct [(-1 : ℂ), 1] [] 2 1).map (fun c => calc_soft_dec c 0 1) =
      Except.ok (Except.error AccessErr.oob) := by
  rw [construct_pm_one]
  show Except.ok (calc_soft_dec cstl_pm_one 0 1) = _
  congr 1
  have hk : Nat.log 2 (List.length cstl_pm_one.d_constellation) = 1 := by
    show Nat.log 2 2 = 1
    rw [Nat.log, dif_pos (by norm_num)]
    norm_num [Nat.log]
  simp only [calc_soft_dec]
  rw [hk]
  rfl

/-! Phase error: the `d_constellation[index + d]` indexing (C2). -/

/-- The constellation produced by `constellation([1, i, -1, -i], [],
4, 2)`: a dimensionality-2 point set with two symbols, `(1, i)` and
`(-1, -i)`; the summed magnitude is 4, so the scale factor is 1. -/
noncomputable def cstl_quad2 : constellation :=
  { d_constellation := [1, Complex.I, -1, -Complex.I]
    d_pre_diff_code := []
    d_apply_pre_diff_code := false
    d_rotational_symmetry := 4
    d_dimensionality := 2
    d_arity := 2
    d_scalefactor := 1
    d_re_min := 1e20
    d_re_max := 1e20
    d_im_min := 1e20
    d_im_max := 1e20
    d_soft_dec_lut := []
    d_lut_precision := 0
    d_lut_scale := 0 }

lemma construct_quad2 :
    construct [1, Complex.I, -1, -Complex.I] [] 4 2 = Except.ok cstl_quad2 := by
  rw [construct, cstl_quad2]
  norm_num

lemma dist_quad2_0 : get_distance cstl_quad2 0 [-1, -Complex.I] = 8 := by
  rw [get_distance_eq_sum]
  show (∑ i ∈ Finset.range 2, _ : ℝ) = 8
  rw [Finset.sum_range_succ, Finset.sum_range_one]
  show Complex.normSq (-1 - 1) + Complex.normSq (-Complex.I - Complex.I) = 8
  simp [Complex.normSq_apply]
  norm_num

lemma dist_quad2_1 : get_distance cstl_quad2 1 [-1, -Complex.I] = 0 := by
  rw [get_distance_eq_sum]
  show (∑ i ∈ Finset.range 2, _ : ℝ) = 0
  rw [Finset.sum_range_succ, Finset.sum_range_one]
  show Complex.normSq (-1 - -1) + Complex.normSq (-Complex.I - -Complex.I) = 0
  simp

lemma gcp_quad2 : get_closest_point cstl_quad2 [-1, -Complex.I] = 1 := by
  rw [get_closest_point]
  show (closest_fold cstl_quad2 [-1, -Complex.I] (List.range' 1 1) _).1 = 1
  simp only [closest_fold, List.range', List.foldl_cons, List.foldl_nil]
  rw [dist_quad2_1, dist_quad2_0]
  norm_num

/-- C2: the code contradicts the claim for dimensionality 2.  The
phase-error loop reads `d_constellation[index + d]` (line 152) instead
of the `index * d_dimensionality + d` convention of `map_to_points`;
at the symbol-1 sample `(-1, -i)` of the point set `[1, i, -1, -i]`
the returned phase error is `-pi` while the claimed formula over the
decided symbol's own reference points gives 0. -/
theorem decision_maker_pe_wrong_indexing :
    (construct [1, Complex.I, -1, -Complex.I] [] 4 2).map
        (fun c => (decision_maker_pe c (calcdist_decision_maker c)
            [-1, -Complex.I],
          spec_phase_error c 1 [-1, -Complex.I])) =
      Except.ok ((1, -Real.pi), 0) ∧ (-Real.pi : ℝ) ≠ 0 := by
  have hpe : decision_maker_pe cstl_quad2 (calcdist_decision_maker cstl_quad2)
      [-1, -Complex.I] = (1, -Real.pi) := by
    rw [decision_maker_pe]
    have hidx : calcdist_decision_maker cstl_quad2 [-1, -Complex.I] = 1 :=
      gcp_quad2
    rw [hidx]
    show (1, ((List.range 2).foldl _ 0 : ℝ)) = (1, -Real.pi)
    simp only [List.range_succ, List.range_zero, List.foldl_cons,
      List.foldl_nil, List.nil_append, List.cons_append]
    show (1, (0 : ℝ) +
        -Complex.arg (-1 * (starRingEnd ℂ) Complex.I) +
        -Complex.arg (-Complex.I * (starRingEnd ℂ) (-1))) = (1, -Real.pi)
    rw [Complex.conj_I, map_neg, map_one]
    rw [show (-1 : ℂ) * -Complex.I = Complex.I by ring,
      show -Complex.I * -(1 : ℂ) = Complex.I by ring,
      Complex.arg_I]
    rw [Prod.mk.injEq]
    refine ⟨rfl, by ring⟩
  have hspec : spec_phase_error cstl_quad2 1 [-1, -Complex.I] = 0 := by
    rw [spec_phase_error]
    show -(∑ d ∈ Finset.range 2, _ : ℝ) = 0
    rw [Finset.sum_range_succ, Finset.sum_range_one]
    show -(Complex.arg (-1 * (starRingEnd ℂ) (-1)) +
      Complex.arg (-Complex.I * (starRingEnd ℂ) (-Complex.I))) = 0
    rw [map_neg, map_one, map_neg, Complex.conj_I]
    rw [show (-1 : ℂ) * -1 = 1 by ring,
      show -Complex.I * - -Complex.I = 1 by
        rw [neg_neg, neg_mul, Complex.I_mul_I, neg_neg], Complex.arg_one]
    norm_num
  constructor
  · rw [construct_quad2]
    show Except.ok (decision_maker_pe cstl_quad2
        (calcdist_decision_maker cstl_quad2) [-1, -Complex.I],
      spec_phase_error cstl_quad2 1 [-1, -Complex.I]) = _
    rw [hpe, hspec]
  · simpa using Real.pi_ne_zero

/-! Hard-decision round trip (C7): helpers. -/

lemma mk_re (x y : ℝ) : (⟨x, y⟩ : ℂ).re = x := rfl

lemma mk_im (x y : ℝ) : (⟨x, y⟩ : ℂ).im = y := rfl

lemma sin_pi8_pos : 0 < Real.sin (Real.pi / 8) :=
  Real.sin_pos_of_pos_of_lt_pi (by positivity) (by linarith [Real.pi_pos])

lemma sin_pi8_lt_cos_pi8 : Real.sin (Real.pi / 8) < Real.cos (Real.pi / 8) := by
  have hmem1 : Real.pi / 8 ∈ Set.Icc (-(Real.pi / 2)) (Real.pi / 2) := by
    constructor <;> [linarith [Real.pi_pos]; linarith [Real.pi_pos]]
  have hmem2 : 3 * Real.pi / 8 ∈ Set.Icc (-(Real.pi / 2)) (Real.pi / 2) := by
    constructor <;> [linarith [Real.pi_pos]; linarith [Real.pi_pos]]
  have h := Real.strictMonoOn_sin hmem1 hmem2 (by linarith [Real.pi_pos])
  rwa [show 3 * Real.pi / 8 = Real.pi / 2 - Real.pi / 8 by ring,
    Real.sin_pi_div_two_sub] at h

lemma cos_pi8_pos : 0 < Real.cos (Real.pi / 8) :=
  lt_trans sin_pi8_pos sin_pi8_lt_cos_pi8

/-- `psk8_decision_maker` on an explicit complex literal, with the
bitwise ORs rewritten as sums of the disjoint bits. -/
lemma psk8_dm_mk (x y : ℝ) :
    psk8_decision_maker ⟨x, y⟩ =
      (if |x| ≤ |y| then 4 else 0) + (if x ≤ 0 then 1 else 0) +
        (if y ≤ 0 then 2 else 0) := by
  simp only [psk8_decision_maker, mk_re, mk_im]
  by_cases hA : |x| ≤ |y| <;> by_cases hB : x ≤ 0 <;> by_cases hC : y ≤ 0 <;>
    simp [hA, hB, hC]

lemma sqrt_two_const_pos : (0 : ℝ) < SQRT_TWO := by
  rw [SQRT_TWO]; norm_num

lemma bpsk_roundtrip : ∀ i, i < 2 →
    bpsk_decision_maker ((map_to_points_v constellation_bpsk i).getD 0 0) = i := by
  intro i hi
  interval_cases i
  · show bpsk_decision_maker ⟨-1, 0⟩ = 0
    simp only [bpsk_decision_maker, mk_re]
    rw [if_neg (by norm_num)]
  · show bpsk_decision_maker ⟨1, 0⟩ = 1
    simp only [bpsk_decision_maker, mk_re]
    rw [if_pos (by norm_num)]

lemma qpsk_roundtrip : ∀ i, i < 4 →
    qpsk_decision_maker ((map_to_points_v constellation_qpsk i).getD 0 0) = i := by
  have h2 := sqrt_two_const_pos
  intro i hi
  interval_cases i
  · show qpsk_decision_maker ⟨-SQRT_TWO, -SQRT_TWO⟩ = 0
    simp only [qpsk_decision_maker, mk_re, mk_im]
    norm_num
    linarith
  · show qpsk_decision_maker ⟨SQRT_TWO, -SQRT_TWO⟩ = 1
    simp only [qpsk_decision_maker, mk_re, mk_im]
    rw [if_neg (by linarith), if_pos (by linarith)]
  · show qpsk_decision_maker ⟨-SQRT_TWO, SQRT_TWO⟩ = 2
    simp only [qpsk_decision_maker, mk_re, mk_im]
    rw [if_pos (by linarith), if_neg (by linarith)]
  · show qpsk_decision_maker ⟨SQRT_TWO, SQRT_TWO⟩ = 3
    simp only [qpsk_decision_maker, mk_re, mk_im]
    norm_num
    rw [if_pos h2, if_pos h2]

lemma dqpsk_roundtrip : ∀ i, i < 4 →
    dqpsk_decision_maker ((map_to_points_v constellation_dqpsk i).getD 0 0) = i := by
  have h2 := sqrt_two_const_pos
  intro i hi
  interval_cases i
  · show dqpsk_decision_maker ⟨SQRT_TWO, SQRT_TWO⟩ = 0
    simp only [dqpsk_decision_maker, mk_re, mk_im]
    rw [if_pos (by linarith), if_pos (by linarith)]
  · show dqpsk_decision_maker ⟨-SQRT_TWO, SQRT_TWO⟩ = 1
    simp only [dqpsk_decision_maker, mk_re, mk_im]
    rw [if_neg (by linarith), if_pos (by linarith)]
  · show dqpsk_decision_maker ⟨-SQRT_TWO, -SQRT_TWO⟩ = 2
    simp only [dqpsk_decision_maker, mk_re, mk_im]
    rw [if_neg (by linarith), if_neg (by linarith)]
  · show dqpsk_decision_maker ⟨SQRT_TWO, -SQRT_TWO⟩ = 3
    simp only [dqpsk_decision_maker, mk_re, mk_im]
    rw [if_pos (by linarith), if_neg (by linarith)]

lemma psk8_roundtrip : ∀ i, i < 8 →
    psk8_decision_maker ((map_to_points_v constellation_8psk i).getD 0 0) = i := by
  have hs := sin_pi8_pos
  have hc := cos_pi8_pos
  have hsc := sin_pi8_lt_cos_pi8
  intro i hi
  interval_cases i
  · show psk8_decision_maker
        ⟨Real.cos (1 * (Real.pi / 8)), Real.sin (1 * (Real.pi / 8))⟩ = 0
    rw [psk8_dm_mk, show (1 : ℝ) * (Real.pi / 8) = Real.pi / 8 by ring]
    rw [if_neg (by rw [abs_of_pos hc, abs_of_pos hs]; linarith),
      if_neg (by linarith), if_neg (by linarith)]
  · show psk8_decision_maker
        ⟨Real.cos (7 * (Real.pi / 8)), Real.sin (7 * (Real.pi / 8))⟩ = 1
    rw [psk8_dm_mk,
      show (7 : ℝ) * (Real.pi / 8) = Real.pi - Real.pi / 8 by ring,
      Real.cos_pi_sub, Real.sin_pi_sub]
    rw [if_neg (by rw [abs_neg, abs_of_pos hc, abs_of_pos hs]; linarith),
      if_pos (by linarith), if_neg (by linarith)]
  · show psk8_decision_maker
        ⟨Real.cos (15 * (Real.pi / 8)), Real.sin (15 * (Real.pi / 8))⟩ = 2
    rw [psk8_dm_mk,
      show (15 : ℝ) * (Real.pi / 8) = 2 * Real.pi - Real.pi / 8 by ring,
      Real.cos_two_pi_sub, Real.sin_two_pi_sub]
    rw [if_neg (by rw [abs_neg, abs_of_pos hc, abs_of_pos hs]; linarith),
      if_neg (by linarith), if_pos (by linarith)]
  · show psk8_decision_maker
        ⟨Real.cos (9 * (Real.pi / 8)), Real.sin (9 * (Real.pi / 8))⟩ = 3
    rw [psk8_dm_mk,
      show (9 : ℝ) * (Real.pi / 8) = Real.pi - -(Real.pi / 8) by ring,
      Real.cos_pi_sub, Real.sin_pi_sub, Real.cos_neg, Real.sin_neg]
    rw [if_neg (by rw [abs_neg, abs_neg, abs_of_pos hc, abs_of_pos hs]; linarith),
      if_pos (by linarith), if_pos (by linarith)]
  · show psk8_decision_maker
        ⟨Real.cos (3 * (Real.pi / 8)), Real.sin (3 * (Real.pi / 8))⟩ = 4
    rw [psk8_dm_mk,
      show (3 : ℝ) * (Real.pi / 8) = Real.pi / 2 - Real.pi / 8 by ring,
      Real.cos_pi_div_two_sub, Real.sin_pi_div_two_sub]
    rw [if_pos (by rw [abs_of_pos hs, abs_of_pos hc]; linarith),
      if_neg (by linarith), if_neg (by linarith)]
  · show psk8_decision_maker
        ⟨Real.cos (5 * (Real.pi / 8)), Real.sin (5 * (Real.pi / 8))⟩ = 5
    rw [psk8_dm_mk,
      show (5 : ℝ) * (Real.pi / 8) = Real.pi / 2 - -(Real.pi / 8) by ring,
      Real.cos_pi_div_two_sub, Real.sin_pi_div_two_sub,
      Real.sin_neg, Real.cos_neg]
    rw [if_pos (by rw [abs_neg, abs_of_pos hs, abs_of_pos hc]; linarith),
      if_pos (by linarith), if_neg (by linarith)]
  · show psk8_decision_maker
        ⟨Real.cos (13 * (Real.pi / 8)), Real.sin (13 * (Real.pi / 8))⟩ = 6
    rw [psk8_dm_mk,
      show (13 : ℝ) * (Real.pi / 8) =
        2 * Real.pi - (Real.pi / 2 - Real.pi / 8) by ring,
      Real.cos_two_pi_sub, Real.sin_two_pi_sub,
      Real.cos_pi_div_two_sub, Real.sin_pi_div_two_sub]
    rw [if_pos (by rw [abs_of_pos hs, abs_neg, abs_of_pos hc]; linarith),
      if_neg (by linarith), if_pos (by linarith)]
  · show psk8_decision_maker
        ⟨Real.cos (11 * (Real.pi / 8)), Real.sin (11 * (Real.pi / 8))⟩ = 7
    rw [psk8_dm_mk,
      show (11 : ℝ) * (Real.pi / 8) =
        Real.pi - -(Real.pi / 2 - Real.pi / 8) by ring,
      Real.cos_pi_sub, Real.sin_pi_sub, Real.cos_neg, Real.sin_neg,
      Real.cos_pi_div_two_sub, Real.sin_pi_div_two_sub]
    rw [if_pos (by rw [abs_neg, abs_neg, abs_of_pos hs, abs_of_pos hc]; linarith),
      if_pos (by linarith), if_pos (by linarith)]

lemma getD_map_range {α : Type} (f : ℕ → α) (n d : ℕ) (hd : d < n) (dflt : α) :
    ((List.range n).map f).getD d dflt = f d := by
  rw [List.getD_eq_getElem?_getD, List.getElem?_map, List.getElem?_range hd]
  rfl

lemma get_distance_self (c : constellation) (i : ℕ) :
    get_distance c i (map_to_points_v c i) = 0 := by
  rw [get_distance_eq_sum]
  apply Finset.sum_eq_zero
  intro d hd
  rw [Finset.mem_range] at hd
  rw [map_to_points_v, getD_map_range _ _ _ hd]
  simp

lemma get_distance_pos_of_ne (c : constellation) (i j : ℕ)
    (h : map_to_points_v c i ≠ map_to_points_v c j) :
    0 < get_distance c j (map_to_points_v c i) := by
  obtain ⟨d, hd, hne⟩ : ∃ d < c.d_dimensionality,
      c.d_constellation.getD (i * c.d_dimensionality + d) 0 ≠
        c.d_constellation.getD (j * c.d_dimensionality + d) 0 := by
    by_contra hall
    push_neg at hall
    refine h ?_
    rw [map_to_points_v, map_to_points_v]
    exact List.map_congr_left (fun a ha => hall a (List.mem_range.mp ha))
  rw [get_distance_eq_sum]
  apply Finset.sum_pos'
  · intro m _
    exact Complex.normSq_nonneg _
  · refine ⟨d, Finset.mem_range.mpr hd, ?_⟩
    rw [map_to_points_v, getD_map_range _ _ _ hd]
    exact Complex.normSq_pos.mpr (sub_ne_zero.mpr hne)

lemma calcdist_roundtrip (c : constellation)
    (hdist : ∀ i j, i < c.d_arity → j < c.d_arity → i ≠ j →
      map_to_points_v c i ≠ map_to_points_v c j)
    (i : ℕ) (hi : i < c.d_arity) :
    calcdist_decision_maker c (map_to_points_v c i) = i := by
  show get_closest_point c (map_to_points_v c i) = i
  obtain ⟨h1, h2, _⟩ :=
    get_closest_point_spec c (map_to_points_v c i) (by omega)
  by_contra hne
  have hji := hdist i (get_closest_point c (map_to_points_v c i)) hi h1
    (fun hsym => hne hsym.symm)
  have hpos := get_distance_pos_of_ne c i _ hji
  have hle := h2 i hi
  rw [get_distance_self] at hle
  exact absurd hle (not_le.mpr hpos)

/-- C7: `decide(mapToPoint(i)) = i` for every symbol of the closed-form
BPSK, QPSK, DQPSK and 8-PSK strategies evaluated at their own stored
constellation points, and for the nearest-point (`calcdist`) strategy
on every point set whose symbol tuples are pairwise distinct. -/
theorem decide_map_to_point_roundtrip :
    (∀ i, i < 2 →
      bpsk_decision_maker ((map_to_points_v constellation_bpsk i).getD 0 0) = i) ∧
    (∀ i, i < 4 →
      qpsk_decision_maker ((map_to_points_v constellation_qpsk i).getD 0 0) = i) ∧
    (∀ i, i < 4 →
      dqpsk_decision_maker ((map_to_points_v constellation_dqpsk i).getD 0 0) = i) ∧
    (∀ i, i < 8 →
      psk8_decision_maker ((map_to_points_v constellation_8psk i).getD 0 0) = i) ∧
    (∀ c : constellation,
      (∀ i j, i < c.d_arity → j < c.d_arity → i ≠ j →
        map_to_points_v c i ≠ map_to_points_v c j) →
      ∀ i, i < c.d_arity →
        calcdist_decision_maker c (map_to_points_v c i) = i) :=
  ⟨bpsk_roundtrip, qpsk_roundtrip, dqpsk_roundtrip, psk8_roundtrip,
    calcdist_roundtrip⟩

/-- Witness for C7: the 8-PSK case at symbol 5 and the nearest-point
case on the two-point set `[-1, 1]` at symbol 1. -/
theorem decide_map_to_point_roundtrip_witness :
    psk8_decision_maker ((map_to_points_v constellation_8psk 5).getD 0 0) = 5 ∧
      calcdist_decision_maker cstl_pm_one (map_to_points_v cstl_pm_one 1) = 1 :=
  ⟨decide_map_to_point_roundtrip.2.2.2.1 5 (by norm_num),
   decide_map_to_point_roundtrip.2.2.2.2 cstl_pm_one
     (by
       intro i j hi hj hne
       have hi2 : i < 2 := hi
       have hj2 : j < 2 := hj
       interval_cases i <;> interval_cases j <;>
        first
          | exact absurd rfl hne
          | (show ¬ ([(-1 : ℂ)] = [(1 : ℂ)]); simp; norm_num)
          | (show ¬ ([(1 : ℂ)] = [(-1 : ℂ)]); simp; norm_num))
     1 (by decide)⟩

/-! Sector bounds (C10). -/

lemma except_map_eq_ok {ε α β : Type} (f : α → β) (e : Except ε α) (b : β)
    (h : e.map f = Except.ok b) : ∃ a, e = Except.ok a ∧ b = f a := by
  cases e with
  | error err => exact Except.noConfusion h
  | ok a =>
      refine ⟨a, rfl, ?_⟩
      have h' : Except.ok (f a) = Except.ok b := h
      injection h' with h''
      exact h''.symm

lemma sector_combine_lt (rs is : ℤ) (nr ni : ℕ) (h1 : 0 ≤ rs)
    (h2 : rs ≤ (nr : ℤ) - 1) (h3 : 0 ≤ is) (h4 : is ≤ (ni : ℤ) - 1)
    (hni : 1 ≤ ni) :
    (rs * (ni : ℤ) + is).toNat < nr * ni := by
  have hni' : (1 : ℤ) ≤ (ni : ℤ) := by exact_mod_cast hni
  have key : rs * (ni : ℤ) + is < (nr : ℤ) * ni := by nlinarith
  have hcast : ((nr : ℤ)) * ni = ((nr * ni : ℕ) : ℤ) := by push_cast; ring
  have htn : ((rs * (ni : ℤ) + is).toNat : ℤ) = rs * (ni : ℤ) + is :=
    Int.toNat_of_nonneg (by positivity)
  have : ((rs * (ni : ℤ) + is).toNat : ℤ) < ((nr * ni : ℕ) : ℤ) := by
    rw [htn, ← hcast]; exact key
  exact_mod_cast this

lemma rect_get_sector_lt (c : constellation_rect)
    (hr : 1 ≤ c.n_real_sectors) (him : 1 ≤ c.n_imag_sectors) (sample : ℂ) :
    rect_get_sector c sample < c.n_real_sectors * c.n_imag_sectors := by
  simp only [rect_get_sector]
  apply sector_combine_lt <;> try split_ifs <;> omega
  exact him

/-- C10: on every successfully constructed rectangular-sector
constellation with at least one sector on each axis, `get_sector`
yields a value in `[0, n_real_sectors * n_imag_sectors - 1]` for every
complex sample (both axis indices are clamped before combining), the
sector table built by `find_sector_values` has exactly
`n_real_sectors * n_imag_sectors` entries, and therefore the
`sector_values[get_sector(sample)]` access inside `decision_maker` is
in bounds. -/
theorem rect_get_sector_in_range (constell : List ℂ)
    (pre_diff_code : List ℤ) (rot : ℕ) (real_sectors imag_sectors : ℕ)
    (wr wi : ℝ) (c : constellation_rect)
    (hok : rect_construct constell pre_diff_code rot real_sectors
      imag_sectors wr wi = Except.ok c)
    (hr : 1 ≤ real_sectors) (him : 1 ≤ imag_sectors) :
    ∀ sample : ℂ,
      rect_get_sector c sample < real_sectors * imag_sectors ∧
      c.sector_values.length = real_sectors * imag_sectors ∧
      (sector_decision_maker c.toconstellation_sector
        (rect_get_sector c) sample).isSome = true := by
  obtain ⟨base, _hbase, hc⟩ := except_map_eq_ok _ _ _ hok
  have hnr : c.n_real_sectors = real_sectors := by rw [hc]
  have hni : c.n_imag_sectors = imag_sectors := by rw [hc]
  have hsv : c.sector_values.length = real_sectors * imag_sectors := by
    rw [hc]
    show (List.map _ (List.range (real_sectors * imag_sectors))).length = _
    rw [List.length_map, List.length_range]
  intro sample
  have hlt := rect_get_sector_lt c (by rw [hnr]; exact hr)
    (by rw [hni]; exact him) sample
  rw [hnr, hni] at hlt
  refine ⟨hlt, hsv, ?_⟩
  rw [sector_decision_maker]
  rw [Option.isSome_iff_ne_none, ne_eq, List.get?_eq_none]
  push_neg
  show rect_get_sector c sample < c.sector_values.length
  rw [hsv]
  exact hlt

/-! Concrete sector-based instances used to exercise the sector
machinery: the point set `[-1, 1]` with 2 x 1 rectangular sectors of
width 2. -/

lemma cppTrunc_eq_of (x : ℝ) (n : ℤ) (h0 : (n : ℝ) ≤ x) (h1 : x < n + 1)
    (hn : 0 ≤ n) : cppTrunc x = n := by
  rw [cppTrunc, if_neg (by push_neg; exact le_trans (by exact_mod_cast hn) h0)]
  exact Int.floor_eq_iff.mpr ⟨h0, h1⟩

lemma get_distance_dim1 (c : constellation) (h1 : c.d_dimensionality = 1)
    (i : ℕ) (z : ℂ) :
    get_distance c i [z] =
      Complex.normSq (z - c.d_constellation.getD i 0) := by
  rw [get_distance_eq_sum, h1, Finset.sum_range_one, Nat.mul_one, Nat.add_zero]
  rfl

/-- `get_closest_point` on the two-point set `[-1, 1]` in closed
form. -/
lemma gcp_pm_one (z : ℂ) :
    get_closest_point cstl_pm_one [z] =
      if Complex.normSq (z - 1) < Complex.normSq (z - -1) then 1 else 0 := by
  rw [get_closest_point]
  show (closest_fold _ _ (List.range' 1 1) _).1 = _
  simp only [closest_fold, List.range', List.foldl_cons, List.foldl_nil]
  rw [get_distance_dim1 _ rfl 1, get_distance_dim1 _ rfl 0]
  show (if Complex.normSq (z - 1) < Complex.normSq (z - -1)
    then ((1 : ℕ), _) else (0, _)).1 = _
  split_ifs <;> rfl

lemma gcp_at_neg1 : get_closest_point cstl_pm_one [(⟨-1, 0⟩ : ℂ)] = 0 := by
  rw [gcp_pm_one, if_neg]
  simp only [Complex.normSq_apply, Complex.sub_re, Complex.sub_im,
    Complex.neg_re, Complex.neg_im, Complex.one_re, Complex.one_im,
    mk_re, mk_im]
  norm_num

lemma gcp_at_pos1 : get_closest_point cstl_pm_one [(⟨1, 0⟩ : ℂ)] = 1 := by
  rw [gcp_pm_one, if_pos]
  simp only [Complex.normSq_apply, Complex.sub_re, Complex.sub_im,
    Complex.neg_re, Complex.neg_im, Complex.one_re, Complex.one_im,
    mk_re, mk_im]
  norm_num

/-- The rectangular constellation before `find_sector_values`, exactly
as the `constellation_rect` constructor builds it from `cstl_pm_one`
with 2 x 1 sectors of width 2. -/
noncomputable def cstl_rect21_pre : constellation_rect :=
  { toconstellation := cstl_pm_one
    n_sectors := 2 * 1
    sector_values := []
    n_real_sectors := 2
    n_imag_sectors := 1
    d_width_real_sectors := 2 * cstl_pm_one.d_scalefactor
    d_width_imag_sectors := 2 * cstl_pm_one.d_scalefactor }

/-- The finished rectangular constellation, with the sector table from
`find_sector_values`. -/
noncomputable def cstl_rect21 : constellation_rect :=
  { cstl_rect21_pre with
      sector_values :=
        List.map (rect_calc_sector_value cstl_rect21_pre)
          (List.range (2 * 1)) }

lemma rect_eval :
    rect_construct [(-1 : ℂ), 1] [] 2 2 1 2 2 = Except.ok cstl_rect21 := by
  rw [rect_construct, construct_pm_one]
  rfl

lemma rect21_center0 :
    rect_calc_sector_center cstl_rect21_pre 0 = ⟨-1, 0⟩ := by
  apply Complex.ext <;>
    simp [rect_calc_sector_center, mk_re, mk_im, cstl_rect21_pre,
      cstl_pm_one] <;>
    norm_num

lemma rect21_center1 :
    rect_calc_sector_center cstl_rect21_pre 1 = ⟨1, 0⟩ := by
  apply Complex.ext <;>
    simp [rect_calc_sector_center, mk_re, mk_im, cstl_rect21_pre,
      cstl_pm_one] <;>
    norm_num

lemma rect21_sv : cstl_rect21.sector_values = [0, 1] := by
  show [rect_calc_sector_value cstl_rect21_pre 0,
    rect_calc_sector_value cstl_rect21_pre 1] = [0, 1]
  rw [rect_calc_sector_value, rect_calc_sector_value]
  show [get_closest_point cstl_pm_one [rect_calc_sector_center cstl_rect21_pre 0],
    get_closest_point cstl_pm_one [rect_calc_sector_center cstl_rect21_pre 1]] = _
  rw [rect21_center0, rect21_center1, gcp_at_neg1, gcp_at_pos1]

lemma rect21_get_sector_neg1 : rect_get_sector cstl_rect21 ⟨-1, 0⟩ = 0 := by
  have hw : cstl_rect21.d_width_real_sectors = 2 := by
    show 2 * cstl_pm_one.d_scalefactor = 2
    norm_num [cstl_pm_one]
  have hw' : cstl_rect21.d_width_imag_sectors = 2 := by
    show 2 * cstl_pm_one.d_scalefactor = 2
    norm_num [cstl_pm_one]
  have hnr : cstl_rect21.n_real_sectors = 2 := rfl
  have hni : cstl_rect21.n_imag_sectors = 1 := rfl
  simp only [rect_get_sector, mk_re, mk_im, hw, hw', hnr, hni]
  rw [cppTrunc_eq_of _ 0 (by norm_num) (by norm_num) le_rfl,
    cppTrunc_eq_of _ 0 (by norm_num) (by norm_num) le_rfl]
  norm_num

/-- C10 witness at the 2 x 1 rectangular instance and sample 0. -/
theorem rect_get_sector_in_range_witness :
    rect_get_sector cstl_rect21 0 < 2 * 1 ∧
      cstl_rect21.sector_values.length = 2 * 1 ∧
      (sector_decision_maker cstl_rect21.toconstellation_sector
        (rect_get_sector cstl_rect21) 0).isSome = true :=
  rect_get_sector_in_range _ _ _ _ _ _ _ _ rect_eval (by norm_num)
    (by norm_num) 0

/-! The explicit-rect variant (C5). -/

/-- The explicit-rect constellation built on `cstl_rect21` with the
caller-supplied sector table `[1, 0]` — deliberately the reverse of the
nearest-point table `[0, 1]` that `find_sector_values` produced. -/
noncomputable def cstl_expl21 : constellation_expl_rect :=
  { toconstellation_rect := cstl_rect21, d_sector_values := [1, 0] }

lemma expl_eval :
    expl_rect_construct [(-1 : ℂ), 1] [] 2 2 1 2 2 [1, 0] =
      Except.ok cstl_expl21 := by
  rw [expl_rect_construct, rect_eval]
  rfl

/-- C5: the code contradicts the claim.  `decision_maker` on a
`constellation_expl_rect` returns `sector_values[get_sector(sample)]`
where `sector_values` was filled by `find_sector_values()` during the
`constellation_rect` base construction — through
`constellation_rect::calc_sector_value`, nearest-point search from the
sector centers, since C++ virtual dispatch inside a base-class
constructor cannot reach the derived override and `find_sector_values`
is never invoked again.  The caller-supplied `d_sector_values` is never
consulted: at sample `-1` (sector 0) the decision is 0, the nearest
point, while the supplied table maps sector 0 to 1. -/
theorem expl_rect_ignores_supplied_table :
    expl_rect_construct [(-1 : ℂ), 1] [] 2 2 1 2 2 [1, 0] =
        Except.ok cstl_expl21 ∧
      expl_rect_decision_maker cstl_expl21 ⟨-1, 0⟩ = some 0 ∧
      expl_rect_calc_sector_value cstl_expl21
        (rect_get_sector cstl_expl21.toconstellation_rect ⟨-1, 0⟩) = some 1 ∧
      (0 : ℕ) ≠ 1 := by
  refine ⟨expl_eval, ?_, ?_, by norm_num⟩
  · rw [expl_rect_decision_maker, sector_decision_maker]
    show cstl_rect21.sector_values.get? (rect_get_sector cstl_rect21 ⟨-1, 0⟩) =
      some 0
    rw [rect21_get_sector_neg1, rect21_sv]
    rfl
  · rw [expl_rect_calc_sector_value]
    show ([1, 0] : List ℕ).get? (rect_get_sector cstl_rect21 ⟨-1, 0⟩) = some 1
    rw [rect21_get_sector_neg1]
    rfl

/-! Sector-center agreement with nearest-point search (C8). -/

lemma rect_get_sector_center (c : constellation_rect)
    (hwr : 0 < c.d_width_real_sectors) (hwi : 0 < c.d_width_imag_sectors)
    (hni : 1 ≤ c.n_imag_sectors) (s : ℕ)
    (hs : s < c.n_real_sectors * c.n_imag_sectors) :
    rect_get_sector c (rect_calc_sector_center c s) = s := by
  have hni0 : 0 < c.n_imag_sectors := hni
  have hrs_lt : s / c.n_imag_sectors < c.n_real_sectors :=
    (Nat.div_lt_iff_lt_mul hni0).mpr hs
  have him_lt : s % c.n_imag_sectors < c.n_imag_sectors := Nat.mod_lt _ hni0
  have hdm : s / c.n_imag_sectors * c.n_imag_sectors +
      s % c.n_imag_sectors = s := by
    rw [Nat.mul_comm]
    exact Nat.div_add_mod s _
  have him_eq : s - s / c.n_imag_sectors * c.n_imag_sectors =
      s % c.n_imag_sectors := by omega
  rw [rect_calc_sector_center, rect_get_sector]
  simp only [mk_re, mk_im, him_eq]
  have hre : (((s / c.n_imag_sectors : ℕ) : ℝ) + 0.5 -
        (c.n_real_sectors : ℝ) / 2) * c.d_width_real_sectors /
        c.d_width_real_sectors + (c.n_real_sectors : ℝ) / 2 =
      ((s / c.n_imag_sectors : ℕ) : ℝ) + 0.5 := by
    field_simp
    ring
  have him : (((s % c.n_imag_sectors : ℕ) : ℝ) + 0.5 -
        (c.n_imag_sectors : ℝ) / 2) * c.d_width_imag_sectors /
        c.d_width_imag_sectors + (c.n_imag_sectors : ℝ) / 2 =
      ((s % c.n_imag_sectors : ℕ) : ℝ) + 0.5 := by
    field_simp
    ring
  rw [hre, him]
  rw [cppTrunc_eq_of _ ((s / c.n_imag_sectors : ℕ) : ℤ)
      (by rw [Int.cast_natCast]; norm_num)
      (by rw [Int.cast_natCast]; norm_num) (by positivity),
    cppTrunc_eq_of _ ((s % c.n_imag_sectors : ℕ) : ℤ)
      (by rw [Int.cast_natCast]; norm_num)
      (by rw [Int.cast_natCast]; norm_num) (by positivity)]
  have h1 : ¬ (((s / c.n_imag_sectors : ℕ) : ℤ) < 0) :=
    not_lt.mpr (Int.natCast_nonneg _)
  have h2 : ¬ ((c.n_real_sectors : ℤ) ≤ ((s / c.n_imag_sectors : ℕ) : ℤ)) := by
    rw [not_le]
    exact_mod_cast hrs_lt
  have h3 : ¬ (((s % c.n_imag_sectors : ℕ) : ℤ) < 0) :=
    not_lt.mpr (Int.natCast_nonneg _)
  have h4 : ¬ ((c.n_imag_sectors : ℤ) ≤ ((s % c.n_imag_sectors : ℕ) : ℤ)) := by
    rw [not_le]
    exact_mod_cast him_lt
  simp only [if_neg h1, if_neg h2, if_neg h3, if_neg h4]
  rw [show (((s / c.n_imag_sectors : ℕ) : ℤ) * (c.n_imag_sectors : ℤ) +
      ((s % c.n_imag_sectors : ℕ) : ℤ)) =
      ((s / c.n_imag_sectors * c.n_imag_sectors +
        s % c.n_imag_sectors : ℕ) : ℤ) by push_cast; ring]
  rw [hdm, Int.toNat_natCast]

/-- The sector-table entry read by the rectangular decision at a sector
center is the table entry for that very sector. -/
lemma rect_center_agrees (constell : List ℂ) (code : List ℤ) (rot nr ni : ℕ)
    (wr wi : ℝ) (c : constellation_rect)
    (hok : rect_construct constell code rot nr ni wr wi = Except.ok c)
    (hwr : 0 < c.d_width_real_sectors) (hwi : 0 < c.d_width_imag_sectors)
    (hni : 1 ≤ ni) (s : ℕ) (hs : s < nr * ni) :
    sector_decision_maker c.toconstellation_sector (rect_get_sector c)
        (rect_calc_sector_center c s) =
      some (calcdist_decision_maker c.toconstellation
        [rect_calc_sector_center c s]) := by
  obtain ⟨base, _hbase, rfl⟩ := except_map_eq_ok _ _ _ hok
  rw [sector_decision_maker]
  rw [rect_get_sector_center _ hwr hwi hni s hs]
  show (List.map _ (List.range (nr * ni))).get? s = _
  rw [List.get?_eq_getElem?, List.getElem?_map, List.getElem?_range hs]
  rfl

lemma floor_add_half_natCast (m : ℕ) : ⌊(m : ℝ) + 0.5⌋ = (m : ℤ) := by
  rw [Int.floor_eq_iff]
  constructor
  · push_cast
    norm_num
  · push_cast
    norm_num

lemma floor_add_half_intCast (m : ℤ) : ⌊(m : ℝ) + 0.5⌋ = m := by
  rw [Int.floor_eq_iff]
  constructor
  · norm_num
  · norm_num

lemma psk_get_sector_center (c : constellation_sector) (s : ℕ)
    (hs : s < c.n_sectors) :
    psk_get_sector c (psk_sector_center c s) = s := by
  have hn0 : 0 < c.n_sectors := by omega
  have hnR : (0 : ℝ) < (c.n_sectors : ℝ) := by exact_mod_cast hn0
  have hpi := Real.pi_pos
  have hsn : (s : ℝ) < (c.n_sectors : ℝ) := by exact_mod_cast hs
  rw [psk_get_sector]
  rw [show psk_sector_center c s =
    ⟨Real.cos ((s : ℝ) * (2 * Real.pi) / (c.n_sectors : ℝ)),
     Real.sin ((s : ℝ) * (2 * Real.pi) / (c.n_sectors : ℝ))⟩ from rfl]
  rw [Complex.mk_eq_add_mul_I]
  by_cases hcase : 2 * s ≤ c.n_sectors
  · have hc2 : (2 * s : ℝ) ≤ (c.n_sectors : ℝ) := by exact_mod_cast hcase
    have hθ0 : 0 ≤ (s : ℝ) * (2 * Real.pi) / (c.n_sectors : ℝ) := by positivity
    have hθpi : (s : ℝ) * (2 * Real.pi) / (c.n_sectors : ℝ) ≤ Real.pi := by
      rw [div_le_iff₀ hnR]
      nlinarith
    rw [Complex.ofReal_cos, Complex.ofReal_sin]
    rw [Complex.arg_cos_add_sin_mul_I ⟨by linarith, hθpi⟩]
    have hdiv : (s : ℝ) * (2 * Real.pi) / (c.n_sectors : ℝ) /
        (2 * Real.pi / (c.n_sectors : ℝ)) = (s : ℝ) := by
      field_simp
    rw [hdiv, floor_add_half_natCast]
    rw [if_neg (not_lt.mpr (Int.natCast_nonneg _))]
    exact Int.toNat_natCast s
  · have hc2 : (c.n_sectors : ℝ) < (2 * s : ℝ) := by
      exact_mod_cast Nat.lt_of_not_le hcase
    have hθpi : Real.pi < (s : ℝ) * (2 * Real.pi) / (c.n_sectors : ℝ) := by
      rw [lt_div_iff₀ hnR]
      nlinarith
    have hθ2pi : (s : ℝ) * (2 * Real.pi) / (c.n_sectors : ℝ) < 2 * Real.pi := by
      rw [div_lt_iff₀ hnR]
      nlinarith
    rw [show Real.cos ((s : ℝ) * (2 * Real.pi) / (c.n_sectors : ℝ)) =
        Real.cos ((s : ℝ) * (2 * Real.pi) / (c.n_sectors : ℝ) - 2 * Real.pi)
      from (Real.cos_sub_two_pi _).symm]
    rw [show Real.sin ((s : ℝ) * (2 * Real.pi) / (c.n_sectors : ℝ)) =
        Real.sin ((s : ℝ) * (2 * Real.pi) / (c.n_sectors : ℝ) - 2 * Real.pi)
      from (Real.sin_sub_two_pi _).symm]
    rw [Complex.ofReal_cos, Complex.ofReal_sin]
    rw [Complex.arg_cos_add_sin_mul_I ⟨by linarith, by linarith⟩]
    have hdiv : ((s : ℝ) * (2 * Real.pi) / (c.n_sectors : ℝ) - 2 * Real.pi) /
        (2 * Real.pi / (c.n_sectors : ℝ)) =
        (((s : ℤ) - (c.n_sectors : ℤ) : ℤ) : ℝ) := by
      push_cast
      field_simp
      ring
    rw [hdiv, floor_add_half_intCast]
    rw [if_pos (by omega)]
    have : (s : ℤ) - (c.n_sectors : ℤ) + (c.n_sectors : ℤ) = (s : ℤ) := by ring
    rw [this]
    exact Int.toNat_natCast s

/-- C8: at every sector's geometric center, the sector-based decisions
(rectangular and PSK) return exactly the nearest-point (`calcdist`)
decision for that center, because `find_sector_values` computed the
SectorTable entry for that sector by `get_closest_point` on the
center. -/
theorem sector_decisions_agree_at_centers :
    (∀ (constell : List ℂ) (code : List ℤ) (rot nr ni : ℕ) (wr wi : ℝ)
      (c : constellation_rect) (s : ℕ),
      rect_construct constell code rot nr ni wr wi = Except.ok c →
      0 < c.d_width_real_sectors → 0 < c.d_width_imag_sectors →
      1 ≤ ni → s < nr * ni →
      sector_decision_maker c.toconstellation_sector (rect_get_sector c)
          (rect_calc_sector_center c s) =
        some (calcdist_decision_maker c.toconstellation
          [rect_calc_sector_center c s])) ∧
    (∀ (constell : List ℂ) (code : List ℤ) (n : ℕ)
      (c : constellation_sector) (s : ℕ),
      psk_construct constell code n = Except.ok c →
      s < n →
      sector_decision_maker c (psk_get_sector c) (psk_sector_center c s) =
        some (calcdist_decision_maker c.toconstellation
          [psk_sector_center c s])) := by
  constructor
  · intro constell code rot nr ni wr wi c s hok hwr hwi hni hs
    exact rect_center_agrees constell code rot nr ni wr wi c hok hwr hwi hni s hs
  · intro constell code n c s hok hs
    obtain ⟨base, _hbase, rfl⟩ := except_map_eq_ok _ _ _ hok
    rw [sector_decision_maker, psk_get_sector_center _ s hs]
    show (List.map _ (List.range n)).get? s = _
    rw [List.get?_eq_getElem?, List.getElem?_map, List.getElem?_range hs]
    rfl

/-- The PSK constellation on the points `[-1, 1]` with a single
sector. -/
noncomputable def cstl_psk1_pre : constellation_sector :=
  { toconstellation := cstl_pm_one, n_sectors := 1, sector_values := [] }

noncomputable def cstl_psk1 : constellation_sector :=
  { cstl_psk1_pre with
      sector_values :=
        List.map (psk_calc_sector_value cstl_psk1_pre) (List.range 1) }

lemma psk_eval : psk_construct [(-1 : ℂ), 1] [] 1 = Except.ok cstl_psk1 := by
  rw [psk_construct]
  rw [show ([(-1 : ℂ), 1] : List ℂ).length = 2 from rfl]
  rw [construct_pm_one]
  rfl

/-- Witness for C8 at the 2 x 1 rectangular instance (sector 0) and the
single-sector PSK instance (sector 0). -/
theorem sector_decisions_agree_at_centers_witness :
    (sector_decision_maker cstl_rect21.toconstellation_sector
        (rect_get_sector cstl_rect21) (rect_calc_sector_center cstl_rect21 0) =
      some (calcdist_decision_maker cstl_rect21.toconstellation
        [rect_calc_sector_center cstl_rect21 0])) ∧
    (sector_decision_maker cstl_psk1 (psk_get_sector cstl_psk1)
        (psk_sector_center cstl_psk1 0) =
      some (calcdist_decision_maker cstl_psk1.toconstellation
        [psk_sector_center cstl_psk1 0])) :=
  ⟨sector_decisions_agree_at_centers.1 _ _ _ _ _ _ _ _ 0 rect_eval
      (by show (0 : ℝ) < 2 * cstl_pm_one.d_scalefactor
          norm_num [cstl_pm_one])
      (by show (0 : ℝ) < 2 * cstl_pm_one.d_scalefactor
          norm_num [cstl_pm_one])
      (by norm_num) (by norm_num),
   sector_decisions_agree_at_centers.2 _ _ _ _ 0 psk_eval (by norm_num)⟩

/-! The soft-decision lookup (C6). -/

lemma exceptOfOption_ne_range {α : Type} (o : Option α) :
    exceptOfOption AccessErr.oob o ≠ Except.error AccessErr.range := by
  cases o with
  | none =>
      intro h
      rw [exceptOfOption] at h
      injection h with h'
      exact AccessErr.noConfusion h'
  | some a =>
      intro h
      rw [exceptOfOption] at h
      exact Except.noConfusion h

lemma lut_max_index_nonneg (c : constellation) : 0 ≤ lut_max_index c := by
  rw [lut_max_index, cppTrunc,
    if_neg (not_lt.mpr (mul_self_nonneg c.d_lut_scale))]
  exact Int.floor_nonneg.mpr (mul_self_nonneg c.d_lut_scale)

/-- C6 (amended): when a LUT exists, `soft_decision_maker` throws the
range error exactly when the computed flat index is negative; when the
index strictly exceeds `d_lut_scale * d_lut_scale` it reads the table
at flat position `d_lut_scale^2 - 1` — the last entry only if the table
holds exactly `d_lut_scale^2` entries, and an out-of-bounds read
otherwise; for `0 <= index <= d_lut_scale^2` it reads position `index`
directly, which is an out-of-bounds access (not a clamp) whenever the
table is shorter; with no LUT it returns `calc_soft_dec(sample)` with
the declaration's default noise power 1. -/
theorem soft_decision_maker_spec (c : constellation) (sample : ℂ) :
    (has_soft_dec_lut c = false →
      soft_decision_maker c sample = calc_soft_dec c sample 1) ∧
    (has_soft_dec_lut c = true →
      ((soft_decision_maker c sample = Except.error AccessErr.range ↔
          lut_index c sample < 0) ∧
        (lut_max_index c < lut_index c sample →
          soft_decision_maker c sample =
            exceptOfOption AccessErr.oob
              (listGetZ c.d_soft_dec_lut (lut_max_index c - 1))) ∧
        (0 ≤ lut_index c sample → lut_index c sample ≤ lut_max_index c →
          soft_decision_maker c sample =
            exceptOfOption AccessErr.oob
              (listGetZ c.d_soft_dec_lut (lut_index c sample))) ∧
        ((c.d_soft_dec_lut.length : ℤ) = lut_max_index c →
          lut_max_index c < lut_index c sample →
          0 < c.d_soft_dec_lut.length →
          soft_decision_maker c sample =
            Except.ok (c.d_soft_dec_lut.getD
              (c.d_soft_dec_lut.length - 1) [])))) := by
  constructor
  · intro hno
    rw [soft_decision_maker, if_neg (by rw [hno]; exact Bool.false_ne_true)]
  · intro hyes
    have hmax := lut_max_index_nonneg c
    constructor
    · constructor
      · intro h
        rw [soft_decision_maker, if_pos hyes] at h
        by_cases h1 : lut_max_index c < lut_index c sample
        · rw [if_pos h1] at h
          exact absurd h (exceptOfOption_ne_range _)
        · rw [if_neg h1] at h
          by_cases h2 : lut_index c sample < 0
          · exact h2
          · rw [if_neg h2] at h
            exact absurd h (exceptOfOption_ne_range _)
      · intro h
        rw [soft_decision_maker, if_pos hyes,
          if_neg (by omega), if_pos h]
    · constructor
      · intro h1
        rw [soft_decision_maker, if_pos hyes, if_pos h1]
      · constructor
        · intro h0 h1
          rw [soft_decision_maker, if_pos hyes, if_neg (by omega),
            if_neg (by omega)]
        · intro hlen h1 hpos
          rw [soft_decision_maker, if_pos hyes, if_pos h1]
          rw [listGetZ, if_neg (by omega)]
          have htn : (lut_max_index c - 1).toNat =
              c.d_soft_dec_lut.length - 1 := by omega
          rw [htn]
          rw [List.getD_eq_getElem?_getD, ← List.get?_eq_getElem?]
          have hlt : c.d_soft_dec_lut.length - 1 < c.d_soft_dec_lut.length := by
            omega
          rw [List.get?_eq_get hlt]
          rw [exceptOfOption]
          rfl

/-- Witness for C6: on a constellation with no LUT the lookup falls
through to `calc_soft_dec` with noise power 1. -/
theorem soft_decision_maker_spec_witness :
    soft_decision_maker cstl_pm_one 0 = calc_soft_dec cstl_pm_one 0 1 :=
  (soft_decision_maker_spec cstl_pm_one 0).1 rfl

/-- The `[-1, 1]` constellation after
`set_soft_dec_lut([[0]], precision = 2)`: the bounding box is
`[-1,1] x [-1,1]` (the imaginary bounds inherit the real ones through
the zero-substitution rule), the table has a single entry, and
`d_lut_scale = 2^2`. -/
noncomputable def cstl_lut : constellation :=
  { d_constellation := [-1, 1]
    d_pre_diff_code := []
    d_apply_pre_diff_code := false
    d_rotational_symmetry := 2
    d_dimensionality := 1
    d_arity := 2
    d_scalefactor := 1
    d_re_min := -1
    d_re_max := 1
    d_im_min := -1
    d_im_max := 1
    d_soft_dec_lut := [[0]]
    d_lut_precision := 2
    d_lut_scale := (2 : ℝ) ^ (2 : ℤ) }

lemma max_min_axes_pm_one :
    max_min_axes cstl_pm_one =
      { cstl_pm_one with d_re_min := -1, d_re_max := 1,
                         d_im_min := -1, d_im_max := 1 } := by
  rw [max_min_axes]
  norm_num [cstl_pm_one, Complex.one_re, Complex.one_im, Complex.neg_re,
    Complex.neg_im]

lemma set_eval : set_soft_dec_lut cstl_pm_one [[0]] 2 = cstl_lut := by
  rw [set_soft_dec_lut, max_min_axes_pm_one]
  rfl

lemma cstl_lut_scale : cstl_lut.d_lut_scale = 4 := by
  show ((2 : ℝ) ^ (2 : ℤ)) = 4
  norm_num

lemma lut_index_eval : lut_index cstl_lut ⟨1, 1⟩ = 15 := by
  simp only [lut_index, mk_re, mk_im, cstl_lut_scale]
  rw [show cstl_lut.d_re_min = -1 from rfl, show cstl_lut.d_re_max = 1 from rfl,
    show cstl_lut.d_im_min = -1 from rfl, show cstl_lut.d_im_max = 1 from rfl]
  rw [show (-(-1 : ℝ) + min 1 (max (-1) 1)) * ((4 : ℝ) / (1 - -1) -
      (1 - -1) / 4) = 3 by norm_num]
  rw [show ⌊(3 : ℝ)⌋ = 3 by norm_num]
  rw [cppTrunc_eq_of _ 15 (by norm_num) (by norm_num) (by norm_num)]

lemma lut_max_index_eval : lut_max_index cstl_lut = 16 := by
  rw [lut_max_index, cstl_lut_scale]
  rw [cppTrunc_eq_of _ 16 (by norm_num) (by norm_num) (by norm_num)]

/-- C6 counterexample: with the one-entry table installed by
`set_soft_dec_lut([[0]], 2)` on the `[-1, 1]` constellation, the sample
`1 + i` yields flat index 15, which exceeds the table's last valid
entry 0 but not `max_index = 16`; the code reads `d_soft_dec_lut[15]`
out of bounds instead of returning the last entry as the claim
states. -/
theorem soft_decision_maker_oob_counterexample :
    soft_decision_maker (set_soft_dec_lut cstl_pm_one [[0]] 2) ⟨1, 1⟩ =
        Except.error AccessErr.oob ∧
      (set_soft_dec_lut cstl_pm_one [[0]] 2).d_soft_dec_lut.length = 1 ∧
      lut_index (set_soft_dec_lut cstl_pm_one [[0]] 2) ⟨1, 1⟩ = 15 ∧
      ((1 : ℤ) - 1 < 15) ∧
      (Except.error AccessErr.oob ≠
        (Except.ok [(0 : ℝ)] : Except AccessErr (List ℝ))) := by
  rw [set_eval]
  refine ⟨?_, rfl, lut_index_eval, by norm_num, by intro h; exact Except.noConfusion h⟩
  rw [soft_decision_maker,
    if_pos (show has_soft_dec_lut cstl_lut = true from rfl),
    lut_index_eval, lut_max_index_eval]
  rw [if_neg (by norm_num), if_neg (by norm_num)]
  rfl

end GrDigital
